import Mathlib

/-!
Verification development for the tdf terminal PDF viewer.

This file gives a shallow embedding of the pure parts of the program's source
(src/skip.rs, src/renderer.rs, src/converter.rs, src/tui.rs) and settles the
frozen claims about it.  Machine integers (usize, u32, i32) are modelled as
Nat/Int; the program is compiled as a release build, so arithmetic overflow
and underflow of the primitive plus and minus operators wrap (two's
complement), while
the checked_* operations return Option.  Wrapping is made explicit below only
at the operations where it can actually occur for usize-ranged inputs; every
other +, - or % in the embedding is exact for such inputs (justified in
comments at each definition).
-/

/-- Largest value of a 64-bit usize. -/
def usizeMax : Nat := 2 ^ 64 - 1

/-- Release-mode usize subtraction: wraps modulo 2^64 on underflow
(for a b < 2^64). -/
def usizeSub (a b : Nat) : Nat := if b ≤ a then a - b else 2 ^ 64 + a - b

/-- Release-mode usize addition: wraps modulo 2^64 (for a b < 2^64). -/
def usizeAdd (a b : Nat) : Nat := (a + b) % 2 ^ 64

/-- Rust usize::checked_add. -/
def checkedAdd (a b : Nat) : Option Nat :=
  if a + b ≤ usizeMax then some (a + b) else none

/-- Rust usize::checked_sub. -/
def checkedSub (a b : Nat) : Option Nat :=
  if b ≤ a then some (a - b) else none

/-- Rust cast `n as usize` for an i32 value n: sign extension, i.e. reduction
modulo 2^64 (total on Int; faithful for n in the i32 range). -/
def i32AsUsize (n : Int) : Nat := (n % 2 ^ 64).toNat

/-! ## src/skip.rs : the Prerender Order Iterator -/

/-- PlusOrMinus from src/skip.rs. -/
inductive PlusOrMinus
  | plus
  | minus
deriving DecidableEq, Repr

/-- InterleavedAroundWithMax from src/skip.rs.  The source keeps
exclusive_max as a NonZeroUsize; the positivity is a precondition carried by
the theorems below. -/
structure InterleavedAroundWithMax where
  around : Nat
  inclusive_min : Nat
  exclusive_max : Nat
  next_change : Nat
  next_op : PlusOrMinus
deriving DecidableEq, Repr

namespace InterleavedAroundWithMax

/-- InterleavedAroundWithMax::new. -/
def new (around inclusive_min exclusive_max : Nat) : InterleavedAroundWithMax :=
  { around := around
    inclusive_min := inclusive_min
    exclusive_max := exclusive_max
    next_change := 0
    next_op := PlusOrMinus.minus }

/-- One call of Iterator::next for InterleavedAroundWithMax (the source's
next always returns Some; we return the produced value and the new state).

Faithfulness of the integer operations for usize-ranged field values:
 - next_change % (exclusive_max - inclusive_min) : exact (the source reads
   the subtraction from a NonZeroUsize bound; min < max is its precondition);
 - the Plus Some-branch: next_val % exclusive_max + inclusive_min cannot
   overflow, because in that branch next_val < 2 * exclusive_max so the
   remainder is next_val - exclusive_max < exclusive_max - inclusive_min,
   hence the sum is < exclusive_max < 2^64;
 - the Plus None-branch (checked_add overflowed): the source computes
   actual_change - (exclusive_max - actual_change) with the plain -, which
   underflows whenever 2 * actual_change < exclusive_max; a release build
   wraps, which usizeSub models, and the following + inclusive_min can then
   overflow as well, hence usizeAdd;
 - the Minus branches: inclusive_min - next_val ≤ inclusive_min
   < exclusive_max and actual_change - (around - inclusive_min) ≤
   actual_change < exclusive_max never underflow when inclusive_min ≤ around
   (the source's precondition), so they are exact;
 - next_change + 1 ≤ exclusive_max ≤ 2^64 - 1 never overflows. -/
def next (s : InterleavedAroundWithMax) : Nat × InterleavedAroundWithMax :=
  let actual_change := s.next_change % (s.exclusive_max - s.inclusive_min)
  let to_return :=
    match s.next_op with
    | PlusOrMinus.plus =>
      match checkedAdd s.around actual_change with
      | some next_val =>
        if next_val < s.exclusive_max then next_val
        else next_val % s.exclusive_max + s.inclusive_min
      | none =>
        usizeAdd (usizeSub actual_change (s.exclusive_max - actual_change))
          s.inclusive_min
    | PlusOrMinus.minus =>
      match checkedSub s.around actual_change with
      | some next_val =>
        if s.inclusive_min ≤ next_val then next_val
        else s.exclusive_max - (s.inclusive_min - next_val)
      | none =>
        s.exclusive_max - (actual_change - (s.around - s.inclusive_min))
  match s.next_op with
  | PlusOrMinus.plus => (to_return, { s with next_op := PlusOrMinus.minus })
  | PlusOrMinus.minus =>
    (to_return,
      { s with
          next_change := (s.next_change + 1) % s.exclusive_max
          next_op := PlusOrMinus.plus })

end InterleavedAroundWithMax

/-- First n elements produced by the iterator (Iterator::take(n).collect()). -/
def iawmTake : Nat → InterleavedAroundWithMax → List Nat
  | 0, _ => []
  | n + 1, s =>
    let p := s.next
    p.1 :: iawmTake n p.2

/-! ## Closed forms for the Prerender Order Iterator analysis

These are analysis artifacts, not source translations: closed forms for the
state and the produced values of InterleavedAroundWithMax, proved equal to
the source-derived next below (in the overflow-free regime). -/

/-- The state of the iterator after k calls to next. -/
def iawmStateAt : Nat → InterleavedAroundWithMax → InterleavedAroundWithMax
  | 0, s => s
  | k + 1, s => iawmStateAt k (s.next).2

/-- Closed form of the value produced by a Minus call with effective change
c, for a window m ≤ a < M. -/
def iawmMinusValue (a m M c : Nat) : Nat :=
  if c ≤ a - m then a - c else M - (c - (a - m))

/-- Closed form of the value produced by a Plus call with effective change
c, for a window m ≤ a < M, when a + c does not overflow usize. -/
def iawmPlusValue (a m M c : Nat) : Nat :=
  if a + c < M then a + c else a + c - M + m

/-- Closed form of the k-th element (0-based) the iterator produces from
new a m M, valid for k < M - m in the overflow-free regime. -/
def iawmElem (a m M k : Nat) : Nat :=
  if k % 2 = 1 then iawmPlusValue a m M ((k + 1) / 2)
  else iawmMinusValue a m M (k / 2)

/-! ## src/renderer.rs : data model and the notification transition -/

/-- PrevRender from src/renderer.rs: the renderer's per-page record. -/
structure PrevRender where
  successful : Bool
  num_search_found : Option Nat
deriving DecidableEq, Repr

/-- The derived Default::default() for PrevRender. -/
def PrevRender.default : PrevRender :=
  { successful := false, num_search_found := none }

/-- Vec::clear, as called by fill_default. -/
def vecClear (_v : List α) : List α := []

/-- Vec::resize_with(size, f): truncate to size, or extend with values of f. -/
def resizeWith (v : List α) (size : Nat) (f : Unit → α) : List α :=
  if size ≤ v.length then v.take size
  else v ++ List.replicate (size - v.length) (f ())

/-- fill_default from src/renderer.rs; the Rust T::default() is passed
explicitly as dflt. -/
def fill_default (v : List α) (size : Nat) (dflt : α) : List α :=
  resizeWith (vecClear v) size (fun _ => dflt)

/-- FitOrFill from src/lib.rs. -/
inductive FitOrFill
  | fit
  | fill
deriving DecidableEq, Repr

/-- RotateDirection from src/renderer.rs. -/
inductive RotateDirection
  | deg0
  | deg90
  | deg180
  | deg270
deriving DecidableEq, Repr

/-- The rotation advancement performed by the Rotate arm of handle_notif. -/
def RotateDirection.advance : RotateDirection → RotateDirection
  | RotateDirection.deg0 => RotateDirection.deg90
  | RotateDirection.deg90 => RotateDirection.deg180
  | RotateDirection.deg180 => RotateDirection.deg270
  | RotateDirection.deg270 => RotateDirection.deg0

/-- A ratatui Rect (u16 fields, modelled as Nat); the renderer only stores
and compares it. -/
structure URect where
  x : Nat
  y : Nat
  width : Nat
  height : Nat
deriving DecidableEq, Repr

/-- RenderNotif from src/renderer.rs. -/
inductive RenderNotif
  | area (r : URect)
  | jumpToPage (page : Nat)
  | pageNeedsReRender (page : Nat)
  | search (term : String)
  | switchFitOrFill (f : FitOrFill)
  | reload
  | invert
  | rotate
deriving DecidableEq, Repr

/-- The locals of start_rendering that the handle_notif macro reads or
writes (search_term, invert, rotate, preserved_area, fit_or_fill,
need_rerender are declared before the reload outer loop; rendered and
start_point inside it). -/
structure RenderState where
  search_term : Option String
  invert : Bool
  rotate : RotateDirection
  preserved_area : Option URect
  fit_or_fill : FitOrFill
  need_rerender : List Nat
  rendered : List PrevRender
  start_point : Nat
deriving DecidableEq, Repr

/-- Which loop the handle_notif macro transfers control to. -/
inductive LoopCtl
  | reload
  | renderPages
  | fallthrough
deriving DecidableEq, Repr

/-- The per-page update performed by the Search(term) arm of handle_notif
when the term is empty (src/renderer.rs lines 228-238). -/
def searchEmptyReset (page : PrevRender) : PrevRender :=
  match page.num_search_found with
  | some n =>
    if 0 < n then { num_search_found := some 0, successful := false }
    else page
  | none => page

/-- The handle_notif macro of start_rendering (src/renderer.rs lines
196-265).  none models the panic of rendered[page] in the PageNeedsReRender
arm when page is out of bounds.  LoopCtl.fallthrough is the SwitchFitOrFill
arm with an unchanged variant, which does not restart any loop. -/
def applyNotif (n_pages : Nat) (notif : RenderNotif) (st : RenderState) :
    Option (RenderState × LoopCtl) :=
  match notif with
  | RenderNotif.reload => some (st, LoopCtl.reload)
  | RenderNotif.invert =>
    some ({ st with
              invert := !st.invert
              rendered := st.rendered.map fun p => { p with successful := false } },
      LoopCtl.renderPages)
  | RenderNotif.area r =>
    some ({ st with
              preserved_area := some r
              rendered := fill_default st.rendered n_pages PrevRender.default },
      LoopCtl.renderPages)
  | RenderNotif.switchFitOrFill f =>
    if f ≠ st.fit_or_fill then
      some ({ st with
                fit_or_fill := f
                rendered := fill_default st.rendered n_pages PrevRender.default },
        LoopCtl.renderPages)
    else some (st, LoopCtl.fallthrough)
  | RenderNotif.jumpToPage page =>
    some ({ st with start_point := page }, LoopCtl.renderPages)
  | RenderNotif.pageNeedsReRender page =>
    if h : page < st.rendered.length then
      some ({ st with
                rendered := st.rendered.set page
                  { st.rendered.get ⟨page, h⟩ with successful := false }
                need_rerender := st.need_rerender ++ [page] },
        LoopCtl.renderPages)
    else none
  | RenderNotif.search term =>
    if term = "" then
      some ({ st with
                rendered := st.rendered.map searchEmptyReset
                search_term := none },
        LoopCtl.renderPages)
    else
      some ({ st with
                rendered := st.rendered.map fun p => { p with num_search_found := none }
                search_term := some term },
        LoopCtl.renderPages)
  | RenderNotif.rotate =>
    some ({ st with
              rotate := st.rotate.advance
              rendered := st.rendered.map fun p => { p with successful := false } },
      LoopCtl.renderPages)

/-- The initialization a reload-outer-loop iteration performs after a
successful Document::open and page count (src/renderer.rs lines 170-172): a
fresh rendered vector of n_pages defaulted slots and start_point = 0.  All
other locals (search_term, invert, rotate, preserved_area, fit_or_fill,
need_rerender) are declared outside the loop and keep their values. -/
def reloadInit (n_pages : Nat) (st : RenderState) : RenderState :=
  { st with
      rendered := fill_default [] n_pages PrevRender.default
      start_point := 0 }

/-- Lines 147-163 of start_rendering: Document::page_count yields an i32
that is cast with as usize; NonZeroUsize::new of it decides whether
RenderInfo::NumPages is emitted (some) or the renderer sleeps a second and
retries the open without emitting (none).  A failed page_count call also
emits no NumPages (only a Doc error). -/
def pageCountToNumPages (count : Int) : Option Nat :=
  let u := i32AsUsize count
  if u = 0 then none else some u

/-! ## src/renderer.rs : the normal render pass over a page iterator -/

/-- Messages the render pass sends on the channel (RenderInfo::Page carries
a full PageInfo; only its page_num and the number of result rects are
relevant to the claims). -/
inductive RenderMsg
  | page (page_num : Nat) (num_rects : Nat)
  | docErr (e : String)
deriving DecidableEq, Repr

/-- Processing of one page of the normal render pass (src/renderer.rs lines
296-368).  rendered[page_num] panics when out of bounds (none).  The page
is skipped when successful and already searched.  Otherwise the
load_page + render_single_page_to_ctx + write_to pipeline is modelled by
the oracle render: an error (from any of those steps) is sent as a Doc
message and the loop continues; on success the slot is updated
(num_search_found := found rects, successful := true) and a Page message is
sent.  The trailing try_recv sees an empty channel under the claims'
no-further-notification premise. -/
def renderPage (render : Nat → Except String Nat) (rendered : List PrevRender)
    (page_num : Nat) : Option (List PrevRender × List RenderMsg) :=
  if h : page_num < rendered.length then
    let prev := rendered.get ⟨page_num, h⟩
    if prev.successful && prev.num_search_found.isSome then some (rendered, [])
    else
      match render page_num with
      | Except.error e => some (rendered, [RenderMsg.docErr e])
      | Except.ok num_rects =>
        some (rendered.set page_num
            { num_search_found := some num_rects, successful := true },
          [RenderMsg.page page_num num_rects])
  else none

/-- The normal render pass: fold renderPage over the page iterator's
output, collecting the messages sent. -/
def renderPass (render : Nat → Except String Nat) :
    List Nat → List PrevRender → Option (List PrevRender × List RenderMsg)
  | [], rendered => some (rendered, [])
  | page_num :: rest, rendered =>
    match renderPage render rendered page_num with
    | none => none
    | some (r, msgs) =>
      match renderPass render rest r with
      | none => none
      | some (rf, msgs') => some (rf, msgs ++ msgs')

/-! ## src/renderer.rs : the search sweep phase -/

/-- SEARCH_AT_TIME from start_rendering. -/
def SEARCH_AT_TIME : Nat := 20

/-- The batch body of one search-sweep iteration (src/renderer.rs lines
380-414): walk the slice rendered[search_start..], at most budget (=
SEARCH_AT_TIME) slice elements, scanning those whose num_search_found is
still unknown.  Counting hits on page i (load_page + count_search_results)
is modelled by the oracle counts; the source unwraps its result, so a
counting failure (counts i = none) is a panic: the whole scan returns none.
On success the slot is updated (successful cleared when hits exist,
num_search_found recorded) and a SearchResults (page_num, num_results)
message is emitted. -/
def sweepScan (counts : Nat → Option Nat) :
    Nat → Nat → List PrevRender → Option (List PrevRender × List (Nat × Nat))
  | 0, _, rendered => some (rendered, [])
  | budget + 1, i, rendered =>
    if h : i < rendered.length then
      let page := rendered.get ⟨i, h⟩
      match page.num_search_found with
      | some _ => sweepScan counts budget (i + 1) rendered
      | none =>
        match counts i with
        | none => none
        | some num_results =>
          let page' : PrevRender :=
            { successful := if 0 < num_results then false else page.successful
              num_search_found := some num_results }
          match sweepScan counts budget (i + 1) (rendered.set i page') with
          | none => none
          | some (rf, msgs) => some (rf, (i, num_results) :: msgs)
    else some (rendered, [])

/-- One iteration of the search-sweep loop (src/renderer.rs lines 374-442):
scan a batch, advance search_start by SEARCH_AT_TIME, then either break
(middle component none), wrap search_start to 0, or continue at the new
search_start.  The outer none models a panic: a failed count (unwrap), or
the slice rendered[search_start..] with search_start beyond the length.
The trailing try_recv sees an empty channel under the claims'
no-further-notification premise, so the loop just continues. -/
def sweepStep (counts : Nat → Option Nat) (n_pages start_point : Nat)
    (rendered : List PrevRender) (search_start : Nat) :
    Option (List PrevRender × Option Nat × List (Nat × Nat)) :=
  if search_start ≤ rendered.length then
    match sweepScan counts SEARCH_AT_TIME search_start rendered with
    | none => none
    | some (r, msgs) =>
      let s := search_start + SEARCH_AT_TIME
      if n_pages < s then
        if start_point = 0 then some (r, none, msgs)
        else some (r, some 0, msgs)
      else
        if (s - SEARCH_AT_TIME) + 1 ≤ start_point ∧ start_point < s then
          some (r, none, msgs)
        else some (r, some s, msgs)
  else none

/-- Outcome of running the sweep loop with bounded fuel. -/
inductive SweepOutcome
  | fuelOut
  | aborted
  | done (rendered : List PrevRender)
deriving DecidableEq, Repr

/-- Run the search-sweep loop for at most fuel iterations: fuelOut when the
loop is still running after fuel iterations, aborted on a panic, done when
it breaks. -/
def sweepRun (counts : Nat → Option Nat) (n_pages start_point : Nat) :
    Nat → List PrevRender → Nat → SweepOutcome
  | 0, _, _ => SweepOutcome.fuelOut
  | fuel + 1, rendered, search_start =>
    match sweepStep counts n_pages start_point rendered search_start with
    | none => SweepOutcome.aborted
    | some (r, none, _) => SweepOutcome.done r
    | some (r, some s, _) => sweepRun counts n_pages start_point fuel r s

/-! ## src/converter.rs -/

/-- The Kitty image id assignment of run_conversion_loop (src/converter.rs
lines 124-150): NonZeroU32::new(page_num as u32 + 1).unwrap().  The cast
as u32 truncates modulo 2^32 and the + 1 wraps in a release build;
NonZeroU32::new returns None exactly on 0 and the unwrap then panics
(none). -/
def kittyImageId (page_num : Nat) : Option Nat :=
  let v := (page_num % 2 ^ 32 + 1) % 2 ^ 32
  if v = 0 then none else some v

/-- The ConverterMsg::NumPages arm of handle_notif in run_conversion_loop
(src/converter.rs lines 179-182): fill_default the holding vector (whose
elements are Option of pending PageInfo, default None) and clamp the anchor
page to n_pages - 1 (release usize subtraction). -/
def converterHandleNumPages (images : List (Option α)) (page : Nat)
    (n_pages : Nat) : List (Option α) × Nat :=
  (fill_default images n_pages none, min page (usizeSub n_pages 1))

/-! ## src/tui.rs -/

/-- RenderedInfo from src/tui.rs: the UI's per-page slot.  The converted
image payload never influences the claims below, so only its presence is
modelled. -/
structure RenderedInfo where
  img : Option Unit
  num_results : Option Nat
deriving DecidableEq, Repr

/-- The derived Default::default() for RenderedInfo. -/
def RenderedInfo.default : RenderedInfo := { img := none, num_results := none }

/-- The fields of Tui that the claims touch: the current page and the page
buffer. -/
structure TuiState where
  page : Nat
  rendered : List RenderedInfo
deriving DecidableEq, Repr

/-- Tui::new leaves the buffer empty and the page at 0. -/
def TuiState.new : TuiState := { page := 0, rendered := [] }

/-- Tui::set_n_pages (src/tui.rs lines 408-411); n_pages - 1 is release
usize subtraction. -/
def Tui.set_n_pages (st : TuiState) (n_pages : Nat) : TuiState :=
  { st with
      rendered := fill_default st.rendered n_pages RenderedInfo.default
      page := min st.page (usizeSub n_pages 1) }

/-- The KeyCode::Char('n') arm of Tui::handle_event together with its guard
(src/tui.rs lines 593-606), under release semantics: the guard compares
page against rendered.len() - 1 computed with wrapping usize subtraction (a
debug build already panics on that underflow when the buffer is empty).
The outer none models the panic of the slice rendered[(page + 1)..] when
its start index exceeds the length.  Otherwise the result is the find_map
over the pages after the current one: the first later page whose
num_results is known and positive. -/
def Tui.handleSearchNextKey (st : TuiState) : Option (Option Nat) :=
  if st.page < usizeSub st.rendered.length 1 then
    if st.page + 1 ≤ st.rendered.length then
      some ((st.rendered.drop (st.page + 1)).enum.findSome? fun p =>
        match p.2.num_results with
        | some num => if 0 < num then some (st.page + 1 + p.1) else none
        | none => none)
    else none
  else some none

/-! ## Theorems -/

/-- Claim C1: For every window [min, max) with min ≤ around < max, the
Prerender Order Iterator yields around as its first element and its first
(max - min) elements visit every index of [min, max) exactly once; in
particular, for around = 5, min = 2, max = 21, the first 30 elements are
5,6,4,7,3,8,2,9,20,10,19,11,18,12,17,13,16,14,15,15,14,16,13,17,12,18,11,19,10,20.

The concrete example holds (first conjunct, matching the source's own unit
test), but the universal property fails: at the window
min = 2^64 - 40, max = 2^64 - 1, around = 2^64 - 2 (a valid usize window
satisfying the source's documented preconditions, D = max - min = 39), the
checked_add-overflow fallback computes
actual_change - (exclusive_max - actual_change) instead of the remaining
distance past exclusive_max from around, so among the first 39 elements the
value 2^64 - 1 = exclusive_max appears (out of range) and the index
2^64 - 3 = min + 37 appears twice.  This theorem evaluates the embedded
iterator at that failing input.  (In the overflow-free regime the claimed
property does hold: see iawm_first_window_exactly_once below.) -/
theorem iawm_overflow_window_fails :
    iawmTake 30 (InterleavedAroundWithMax.new 5 2 21) =
      [5, 6, 4, 7, 3, 8, 2, 9, 20, 10, 19, 11, 18, 12, 17, 13, 16, 14, 15,
        15, 14, 16, 13, 17, 12, 18, 11, 19, 10, 20] ∧
    (2 ^ 64 - 1) ∈
      iawmTake 39
        (InterleavedAroundWithMax.new (2 ^ 64 - 2) (2 ^ 64 - 40) (2 ^ 64 - 1)) ∧
    List.count (2 ^ 64 - 3)
        (iawmTake 39
          (InterleavedAroundWithMax.new (2 ^ 64 - 2) (2 ^ 64 - 40)
            (2 ^ 64 - 1))) = 2 := by
  refine ⟨by decide, by decide, by decide⟩

/-! ## General helper lemmas -/

/-- fill_default resets the vector to exactly size defaulted elements,
whatever it held before. -/
theorem fill_default_eq_replicate (v : List α) (n : Nat) (d : α) :
    fill_default v n d = List.replicate n d := by
  rcases n with _ | n <;> simp [fill_default, vecClear, resizeWith]

/-- A total count oracle never makes sweepScan panic, and the scan keeps
the length of the rendered vector. -/
theorem sweepScan_isSome_of_total (counts : Nat → Option Nat)
    (hc : ∀ j, counts j ≠ none) :
    ∀ (b i : Nat) (r : List PrevRender),
      ∃ rm, sweepScan counts b i r = some rm ∧ rm.1.length = r.length := by
  intro b
  induction b with
  | zero => exact fun i r => ⟨(r, []), rfl, rfl⟩
  | succ b ih =>
    intro i r
    by_cases h : i < r.length
    · rcases hfound : (r.get ⟨i, h⟩).num_search_found with _ | n
      · rcases hcnt : counts i with _ | num
        · exact absurd hcnt (hc i)
        · obtain ⟨rm, hrm, hlen⟩ := ih (i + 1)
            (r.set i
              { successful := if 0 < num then false else (r.get ⟨i, h⟩).successful
                num_search_found := some num })
          refine ⟨(rm.1, (i, num) :: rm.2), ?_, ?_⟩
          · simp only [sweepScan, h, dif_pos, hfound, hcnt, hrm]
          · rw [hlen, List.length_set]
      · obtain ⟨rm, hrm, hlen⟩ := ih (i + 1) r
        exact ⟨rm, by simp only [sweepScan, h, dif_pos, hfound, hrm], hlen⟩
    · exact ⟨(r, []), by simp only [sweepScan, h, dif_neg, not_false_iff], rfl⟩

/-- With a 10-page document and start_point 5, every sweep iteration
continues: once search_start has wrapped to 0 the next increment lands on
20 > 10, so the wrap branch fires again before the return-to-start check
can ever run. -/
theorem sweepStep_n10_sp5_cycles (r : List PrevRender) (s : Nat)
    (hs : s ≤ r.length) :
    ∃ r' msgs,
      sweepStep (fun _ => some 0) 10 5 r s = some (r', some 0, msgs) ∧
        r'.length = r.length := by
  obtain ⟨⟨r', msgs⟩, hscan, hlen⟩ :=
    sweepScan_isSome_of_total (fun _ => some 0) (fun _ => by simp)
      SEARCH_AT_TIME s r
  refine ⟨r', msgs, ?_, hlen⟩
  have h20 : 10 < s + SEARCH_AT_TIME := by
    simp only [SEARCH_AT_TIME]; omega
  simp only [sweepStep, if_pos hs, hscan, if_pos h20]
  rw [if_neg (by decide : ¬(5 : Nat) = 0)]

/-- The sweep loop with n_pages = 10, start_point = 5 runs forever from any
rendered vector of length 10 and any search_start ≤ 10. -/
theorem sweepRun_n10_sp5_diverges :
    ∀ (fuel : Nat) (r : List PrevRender) (s : Nat),
      r.length = 10 → s ≤ 10 →
      sweepRun (fun _ => some 0) 10 5 fuel r s = SweepOutcome.fuelOut := by
  intro fuel
  induction fuel with
  | zero => intro r s _ _; rfl
  | succ fuel ih =>
    intro r s hr hs
    obtain ⟨r', msgs, hstep, hlen⟩ := sweepStep_n10_sp5_cycles r s (by omega)
    rw [sweepRun, hstep]
    exact ih r' 0 (hlen.trans hr) (by omega)

/-- Claim C2: For every page count N ≥ 1 and every start_point in [0, N),
when a non-empty search term is active and no further notifications arrive,
the Renderer's search sweep phase scans unscanned pages in batches of 20
starting past start_point, wraps around to 0 once the end is passed, and
terminates once it returns to start_point.

The termination part fails on the code: with N = 10 pages and
start_point = 5 (all pages still unscanned, every page yielding 0 hits) the
sweep control cycles search_start 5 → 25 (> 10, wrap) → 0 → 20 (> 10, wrap)
→ 0 → … forever.  The return-to-start break is inside the else of the wrap
check, and with N < 20 the wrap check fires on every iteration after the
first, so the break is unreachable and the loop never terminates (a busy
loop that rescans nothing).  This theorem shows the loop is still running
after any amount of fuel. -/
theorem search_sweep_never_terminates :
    ∀ fuel : Nat,
      sweepRun (fun _ => some 0) 10 5 fuel
          (List.replicate 10 PrevRender.default) 5 = SweepOutcome.fuelOut :=
  fun fuel =>
    sweepRun_n10_sp5_diverges fuel (List.replicate 10 PrevRender.default) 5
      (by simp) (by omega)

/-- Claim C3: When the Renderer receives Search with an empty term, it
drops the term and, for exactly those pages whose recorded num_search_found
is greater than 0, sets successful to false (forcing a re-render without
highlights); every page whose last known count was 0 keeps its successful
flag unchanged and is not re-sent.

Confirmed against the Search arm of handle_notif (src/renderer.rs lines
227-250): the term becomes None and every slot is rewritten by
searchEmptyReset, which maps a recorded positive count to successful :=
false / count := Some 0 and leaves slots with count Some 0 or None
untouched; the final conjunct shows a still-successful searched slot passes
the render loop's skip test, so such a page is not re-sent. -/
theorem search_empty_resets_only_hit_pages (n_pages : Nat) (st : RenderState) :
    ∃ st', applyNotif n_pages (RenderNotif.search "") st =
        some (st', LoopCtl.renderPages) ∧
      st'.search_term = none ∧
      st'.rendered = st.rendered.map searchEmptyReset ∧
      (∀ (p : PrevRender) (k : Nat), p.num_search_found = some (k + 1) →
        searchEmptyReset p = ⟨false, some 0⟩) ∧
      (∀ p : PrevRender,
        p.num_search_found = some 0 ∨ p.num_search_found = none →
        searchEmptyReset p = p) ∧
      (∀ (render : Nat → Except String Nat) (rendered : List PrevRender)
        (i : Nat) (h : i < rendered.length),
        (rendered.get ⟨i, h⟩).successful = true →
        (rendered.get ⟨i, h⟩).num_search_found.isSome = true →
        renderPage render rendered i = some (rendered, [])) := by
  have happ : applyNotif n_pages (RenderNotif.search "") st =
      some ({ st with rendered := st.rendered.map searchEmptyReset, search_term := none },
        LoopCtl.renderPages) := by
    simp [applyNotif]
  refine ⟨_, happ, rfl, rfl, ?_, ?_, ?_⟩
  · intro p k hk
    simp [searchEmptyReset, hk]
  · intro p hp
    rcases hp with hp | hp <;> simp [searchEmptyReset, hp]
  · intro render rendered i h hs hn
    simp only [List.get_eq_getElem] at hs hn
    simp [renderPage, h, hs, hn]

/-- Closed witness for search_empty_resets_only_hit_pages, at a concrete
renderer state and concrete page slots. -/
theorem search_empty_resets_only_hit_pages_witness :
    searchEmptyReset ⟨true, some 2⟩ = ⟨false, some 0⟩ ∧
    searchEmptyReset ⟨true, some 0⟩ = ⟨true, some 0⟩ ∧
    searchEmptyReset ⟨false, none⟩ = ⟨false, none⟩ := by
  obtain ⟨st', -, -, -, h4, h5, -⟩ :=
    search_empty_resets_only_hit_pages 3
      ⟨some "abc", false, RotateDirection.deg0, none, FitOrFill.fit, [], [], 0⟩
  exact ⟨h4 ⟨true, some 2⟩ 1 rfl, h5 _ (Or.inl rfl), h5 _ (Or.inr rfl)⟩

/-- Counterexample to claim C4: a failing page in the search-sweep phase is
not surfaced-and-skipped; the source unwraps the load_page /
count_search_results result (src/renderer.rs lines 395-398), so the sweep
panics and the renderer thread dies.  Concrete input: a 10-page document,
start_point 0, all pages unscanned, where counting hits on page 5 fails:
the very first sweep iteration aborts instead of sending a Doc error and
continuing. -/
theorem sweep_page_failure_aborts :
    sweepRun (fun i => if i = 5 then none else some 0) 10 0 1
        (List.replicate 10 PrevRender.default) 0 = SweepOutcome.aborted := by
  decide

/-- Claim C4, amended: in the normal render pass a failure to load or
rasterize one specific page is surfaced as a Doc error message on the
channel and does not abort the render loop or the process — every other
page is still processed exactly as it would have been; in the search-sweep
phase, however, such a failure panics the renderer thread (the source
unwraps it), see sweep_page_failure_aborts.

This theorem proves the normal render pass part (src/renderer.rs lines
309-315 and 336-339): if the pipeline fails on page_num, the pass over
page_num :: rest emits Doc e for it, leaves the slot states unchanged, and
continues with rest exactly as the pass over rest alone would. -/
theorem render_pass_page_failure_continues
    (render : Nat → Except String Nat) (rendered : List PrevRender)
    (page_num : Nat) (e : String) (rest : List Nat)
    (h : page_num < rendered.length)
    (herr : render page_num = Except.error e)
    (hskip : ((rendered.get ⟨page_num, h⟩).successful &&
        (rendered.get ⟨page_num, h⟩).num_search_found.isSome) = false) :
    renderPass render (page_num :: rest) rendered =
      (renderPass render rest rendered).map
        (fun rm => (rm.1, RenderMsg.docErr e :: rm.2)) := by
  rw [renderPass, renderPage, dif_pos h]
  simp only [hskip, Bool.false_eq_true, if_false, herr]
  cases hrec : renderPass render rest rendered with
  | none => rfl
  | some rm => rfl

/-- Closed witness for render_pass_page_failure_continues: a 3-page
document whose page 1 fails to render, with page 2 still to come. -/
theorem render_pass_page_failure_continues_witness :
    renderPass (fun i => if i = 1 then Except.error "boom" else Except.ok 0)
        (1 :: [2]) (List.replicate 3 PrevRender.default) =
      (renderPass (fun i => if i = 1 then Except.error "boom" else Except.ok 0)
          [2] (List.replicate 3 PrevRender.default)).map
        (fun rm => (rm.1, RenderMsg.docErr "boom" :: rm.2)) :=
  render_pass_page_failure_continues _ _ 1 "boom" [2] (by decide) rfl (by decide)

/-- Claim C5: After the UI processes a NumPages(N) notification, the Page
Buffer holds exactly N slots, each reset to the empty state (no image,
unknown num_results), regardless of the buffer's previous length or
contents.

Confirmed: Tui::set_n_pages (src/tui.rs lines 408-411) calls fill_default
(src/renderer.rs lines 72-76), which clears the vector and resizes it with
defaulted elements, and the main event loop routes RenderInfo::NumPages
straight to set_n_pages. -/
theorem num_pages_resets_page_buffer (st : TuiState) (n_pages : Nat) :
    (Tui.set_n_pages st n_pages).rendered =
      List.replicate n_pages RenderedInfo.default ∧
    (Tui.set_n_pages st n_pages).rendered.length = n_pages := by
  have h := fill_default_eq_replicate st.rendered n_pages RenderedInfo.default
  exact ⟨h, by rw [show (Tui.set_n_pages st n_pages).rendered =
    fill_default st.rendered n_pages RenderedInfo.default from rfl, h,
    List.length_replicate]⟩

/-- Claim C7: For every page the Converter converts in Kitty mode, the
image id assigned to the Kitty image is exactly page_number + 1, and that
id lies in the range [1, 2^31).

Confirmed under the bound the pipeline itself provides: the page count
comes from Document::page_count as a nonnegative i32 (hence < 2^31), the
Converter's holding vector is sized by that NumPages value, and every
converted page_num indexes that vector, so page_num + 1 ≤ n_pages < 2^31.
Within that range the as-u32 truncation and the + 1 are exact, and
NonZeroU32::new never sees 0, so the unwrap cannot panic. -/
theorem kitty_image_id_is_page_plus_one
    (count : Int) (n_pages page_num : Nat)
    (hc0 : 0 ≤ count) (hc1 : count < 2 ^ 31)
    (hn : pageCountToNumPages count = some n_pages)
    (hp : page_num < n_pages) :
    kittyImageId page_num = some (page_num + 1) ∧
      1 ≤ page_num + 1 ∧ page_num + 1 < 2 ^ 31 := by
  have hn2 : i32AsUsize count = n_pages := by
    by_cases hz : i32AsUsize count = 0
    · simp [pageCountToNumPages, hz] at hn
    · simpa [pageCountToNumPages, hz] using hn
  have hcount : i32AsUsize count = count.toNat := by
    unfold i32AsUsize
    rw [Int.emod_eq_of_lt hc0 (by omega)]
  have hnp : n_pages < 2 ^ 31 := by
    have hcn : n_pages = count.toNat := by rw [← hn2, hcount]
    omega
  have h1 : page_num + 1 < 2 ^ 31 := by omega
  refine ⟨?_, by omega, h1⟩
  have e1 : page_num % 2 ^ 32 = page_num := Nat.mod_eq_of_lt (by omega)
  have e2 : (page_num + 1) % 2 ^ 32 = page_num + 1 := Nat.mod_eq_of_lt (by omega)
  show (if (page_num % 2 ^ 32 + 1) % 2 ^ 32 = 0 then none
      else some ((page_num % 2 ^ 32 + 1) % 2 ^ 32)) = some (page_num + 1)
  rw [e1, e2]
  exact if_neg (by omega)

/-- Closed witness for kitty_image_id_is_page_plus_one: page 3 of a 10-page
document gets Kitty image id 4. -/
theorem kitty_image_id_is_page_plus_one_witness :
    kittyImageId 3 = some (3 + 1) ∧ 1 ≤ 3 + 1 ∧ 3 + 1 < 2 ^ 31 :=
  kitty_image_id_is_page_plus_one 10 10 3 (by decide) (by decide) (by decide)
    (by decide)

/-- Claim C8: Every NumPages(n) message the Renderer emits satisfies n ≥ 1
(a zero or failed page count triggers a sleep-and-retry instead of an
emission), so the expressions computing n - 1 in the UI's set_n_pages and
in the Converter's NumPages handler never underflow.

Confirmed: NonZeroUsize::new gates the emission (src/renderer.rs lines
147-163), a page count of 0 emits nothing (last conjunct), and with
n_pages ≥ 1 the wrapping usize subtraction n_pages - 1 agrees with the
exact one in both handlers (src/tui.rs lines 408-411, src/converter.rs
lines 179-182). -/
theorem num_pages_emitted_is_positive
    (count : Int) (n_pages : Nat) (st : TuiState)
    (images : List (Option Nat)) (page : Nat)
    (hn : pageCountToNumPages count = some n_pages) :
    1 ≤ n_pages ∧
    usizeSub n_pages 1 = n_pages - 1 ∧
    (Tui.set_n_pages st n_pages).page = min st.page (n_pages - 1) ∧
    (converterHandleNumPages images page n_pages).2 = min page (n_pages - 1) ∧
    pageCountToNumPages 0 = none := by
  have hpos : 1 ≤ n_pages := by
    by_cases hz : i32AsUsize count = 0
    · simp [pageCountToNumPages, hz] at hn
    · have hun : i32AsUsize count = n_pages := by
        simpa [pageCountToNumPages, hz] using hn
      omega
  have hsub : usizeSub n_pages 1 = n_pages - 1 := by
    rw [usizeSub, if_pos hpos]
  refine ⟨hpos, hsub, ?_, ?_, rfl⟩
  · show min st.page (usizeSub n_pages 1) = min st.page (n_pages - 1)
    rw [hsub]
  · show min page (usizeSub n_pages 1) = min page (n_pages - 1)
    rw [hsub]

/-- Closed witness for num_pages_emitted_is_positive, at a 7-page count and
concrete handler states. -/
theorem num_pages_emitted_is_positive_witness :
    1 ≤ 7 ∧
    usizeSub 7 1 = 7 - 1 ∧
    (Tui.set_n_pages ⟨9, []⟩ 7).page = min 9 (7 - 1) ∧
    (converterHandleNumPages ([] : List (Option Nat)) 9 7).2 = min 9 (7 - 1) ∧
    pageCountToNumPages 0 = none :=
  num_pages_emitted_is_positive 7 7 ⟨9, []⟩ [] 9 (by decide)

/-- Claim C9: The active search term is preserved across document reloads:
for every Reload notification, after the document is reopened the Renderer
searches and highlights pages using the same term that was set before the
reload; only a Search notification changes or clears the term.

Confirmed: search_term is declared outside the reload outer loop
(src/renderer.rs lines 100-116); the Reload arm of handle_notif leaves the
whole state untouched and jumps back to the outer loop, the
reinitialization after a successful reopen (reloadInit) rebuilds only the
rendered vector and start_point, and no arm other than Search writes
search_term. -/
theorem search_term_survives_reload
    (n_pages m_pages : Nat) (notif : RenderNotif) (st st' : RenderState)
    (ctl : LoopCtl)
    (happly : applyNotif n_pages notif st = some (st', ctl))
    (hnotsearch : ∀ term, notif ≠ RenderNotif.search term) :
    applyNotif n_pages RenderNotif.reload st = some (st, LoopCtl.reload) ∧
    (reloadInit m_pages st).search_term = st.search_term ∧
    st'.search_term = st.search_term := by
  refine ⟨rfl, rfl, ?_⟩
  cases notif with
  | search term => exact absurd rfl (hnotsearch term)
  | reload =>
    simp only [applyNotif, Option.some.injEq, Prod.mk.injEq] at happly
    rw [← happly.1]
  | invert =>
    simp only [applyNotif, Option.some.injEq, Prod.mk.injEq] at happly
    rw [← happly.1]
  | area r =>
    simp only [applyNotif, Option.some.injEq, Prod.mk.injEq] at happly
    rw [← happly.1]
  | jumpToPage page =>
    simp only [applyNotif, Option.some.injEq, Prod.mk.injEq] at happly
    rw [← happly.1]
  | rotate =>
    simp only [applyNotif, Option.some.injEq, Prod.mk.injEq] at happly
    rw [← happly.1]
  | switchFitOrFill f =>
    simp only [applyNotif] at happly
    split at happly <;>
      (simp only [Option.some.injEq, Prod.mk.injEq] at happly; rw [← happly.1])
  | pageNeedsReRender page =>
    simp only [applyNotif] at happly
    split at happly
    · simp only [Option.some.injEq, Prod.mk.injEq] at happly
      rw [← happly.1]
    · exact Option.noConfusion happly

/-- Closed witness for search_term_survives_reload: an Invert notification
at a state whose term is "abc" keeps the term. -/
theorem search_term_survives_reload_witness :
    applyNotif 2 RenderNotif.reload
        (⟨some "abc", false, RotateDirection.deg0, none, FitOrFill.fit, [], [], 0⟩ :
          RenderState) =
      some ((⟨some "abc", false, RotateDirection.deg0, none, FitOrFill.fit, [], [], 0⟩ :
          RenderState), LoopCtl.reload) ∧
    (reloadInit 3 (⟨some "abc", false, RotateDirection.deg0, none, FitOrFill.fit, [], [],
        0⟩ : RenderState)).search_term =
      (⟨some "abc", false, RotateDirection.deg0, none, FitOrFill.fit, [], [], 0⟩ :
        RenderState).search_term ∧
    (⟨some "abc", true, RotateDirection.deg0, none, FitOrFill.fit, [], [], 0⟩ :
        RenderState).search_term =
      (⟨some "abc", false, RotateDirection.deg0, none, FitOrFill.fit, [], [], 0⟩ :
        RenderState).search_term :=
  search_term_survives_reload 2 3 RenderNotif.invert
    (⟨some "abc", false, RotateDirection.deg0, none, FitOrFill.fit, [], [], 0⟩ :
      RenderState)
    (⟨some "abc", true, RotateDirection.deg0, none, FitOrFill.fit, [], [], 0⟩ :
      RenderState)
    LoopCtl.renderPages rfl (fun _ h => RenderNotif.noConfusion h)

/-- Claim C10: For every input event and every state of the UI's page
buffer, including the empty buffer that exists before the first NumPages
arrives, Tui::handle_event evaluates only in-bounds accesses of the
rendered vector; in particular the guard for the n key
(page < rendered.len() - 1) never underflows and the subsequent slice of
rendered never exceeds its length.

This fails at the empty buffer.  With rendered empty and page = 0 — the
state Tui::new constructs, which persists until the first NumPages — the
guard's rendered.len() - 1 underflows: a debug build panics on the
subtraction itself, and in a release build it wraps to 2^64 - 1, the guard
0 < 2^64 - 1 passes, and the arm then takes the slice rendered[(0 + 1)..]
of a vector of length 0, which panics.  This theorem evaluates the
embedded arm at that state: it reaches the panic (none). -/
theorem handle_event_n_key_panics_on_empty_buffer :
    Tui.handleSearchNextKey TuiState.new = none := by decide

/-! ## The Prerender Order Iterator in the overflow-free regime -/

/-- iawmTake produces exactly n elements. -/
theorem iawmTake_length : ∀ (n : Nat) (s : InterleavedAroundWithMax),
    (iawmTake n s).length = n := by
  intro n
  induction n with
  | zero => intro s; rfl
  | succ n ih => intro s; simp [iawmTake, ih]

/-- The k-th element of iawmTake n s is the value next produces from the
state after k calls. -/
theorem iawmTake_get? : ∀ (n k : Nat) (s : InterleavedAroundWithMax),
    k < n → (iawmTake n s).get? k = some ((iawmStateAt k s).next.1) := by
  intro n
  induction n with
  | zero => intro k s h; exact absurd h (Nat.not_lt_zero k)
  | succ n ih =>
    intro k s h
    cases k with
    | zero => rfl
    | succ k =>
      show (iawmTake n (s.next).2).get? k = _
      rw [ih k (s.next).2 (by omega)]
      rfl

/-- Peeling one next call off the other end of iawmStateAt. -/
theorem iawmStateAt_succ_right : ∀ (k : Nat) (s : InterleavedAroundWithMax),
    iawmStateAt (k + 1) s = ((iawmStateAt k s).next).2 := by
  intro k
  induction k with
  | zero => intro s; rfl
  | succ k ih =>
    intro s
    rw [show iawmStateAt (k + 1 + 1) s = iawmStateAt (k + 1) (s.next).2 from rfl,
      ih]
    rfl

/-- Closed form of the iterator state after 2j (resp. 2j + 1) calls, as
long as the next_change counter has not yet wrapped modulo exclusive_max. -/
theorem iawmStateAt_closed (a m M : Nat) : ∀ j : Nat,
    (j < M →
      iawmStateAt (2 * j) (InterleavedAroundWithMax.new a m M) =
        ⟨a, m, M, j, PlusOrMinus.minus⟩) ∧
    (j + 1 < M →
      iawmStateAt (2 * j + 1) (InterleavedAroundWithMax.new a m M) =
        ⟨a, m, M, j + 1, PlusOrMinus.plus⟩) := by
  intro j
  induction j with
  | zero =>
    refine ⟨fun _ => rfl, fun h1 => ?_⟩
    show ((InterleavedAroundWithMax.new a m M).next).2 = _
    show ({ InterleavedAroundWithMax.new a m M with
      next_change := (0 + 1) % M, next_op := PlusOrMinus.plus } :
        InterleavedAroundWithMax) = _
    rw [InterleavedAroundWithMax.new]
    simp [Nat.mod_eq_of_lt h1]
  | succ j ih =>
    have hfst : j + 1 < M →
        iawmStateAt (2 * (j + 1)) (InterleavedAroundWithMax.new a m M) =
          ⟨a, m, M, j + 1, PlusOrMinus.minus⟩ := by
      intro hj
      rw [show 2 * (j + 1) = (2 * j + 1) + 1 from by omega,
        iawmStateAt_succ_right, ih.2 hj]
      rfl
    refine ⟨hfst, ?_⟩
    intro hj1
    rw [show 2 * (j + 1) + 1 = 2 * (j + 1) + 1 from rfl,
      iawmStateAt_succ_right, hfst (by omega)]
    show ({ (⟨a, m, M, j + 1, PlusOrMinus.minus⟩ : InterleavedAroundWithMax) with
      next_change := (j + 1 + 1) % M, next_op := PlusOrMinus.plus } :
        InterleavedAroundWithMax) = _
    simp [Nat.mod_eq_of_lt hj1]

/-- The value of a Minus call matches its closed form (exact: the Minus
branches never overflow for m ≤ a < M). -/
theorem iawm_next_minus_value (a m M j : Nat) (hm : m ≤ a) (hM : a < M) :
    ((⟨a, m, M, j, PlusOrMinus.minus⟩ : InterleavedAroundWithMax).next).1 =
      iawmMinusValue a m M (j % (M - m)) := by
  have hD : 0 < M - m := by omega
  have hcD : j % (M - m) < M - m := Nat.mod_lt _ hD
  show (match checkedSub a (j % (M - m)) with
    | some next_val => if m ≤ next_val then next_val else M - (m - next_val)
    | none => M - (j % (M - m) - (a - m))) =
    iawmMinusValue a m M (j % (M - m))
  rcases Nat.lt_or_ge a (j % (M - m)) with h | h
  · have h1 : checkedSub a (j % (M - m)) = none := by
      rw [checkedSub, if_neg (by omega)]
    rw [h1]
    show M - (j % (M - m) - (a - m)) =
      (if j % (M - m) ≤ a - m then a - j % (M - m)
        else M - (j % (M - m) - (a - m)))
    split_ifs <;> omega
  · have h1 : checkedSub a (j % (M - m)) = some (a - j % (M - m)) := by
      rw [checkedSub, if_pos h]
    rw [h1]
    show (if m ≤ a - j % (M - m) then a - j % (M - m)
        else M - (m - (a - j % (M - m)))) =
      (if j % (M - m) ≤ a - m then a - j % (M - m)
        else M - (j % (M - m) - (a - m)))
    split_ifs <;> omega

/-- The value of a Plus call matches its closed form, provided checked_add
does not overflow for the effective change. -/
theorem iawm_next_plus_value (a m M j : Nat) (hm : m ≤ a) (hM : a < M)
    (hsafe : a + j % (M - m) ≤ usizeMax) :
    ((⟨a, m, M, j, PlusOrMinus.plus⟩ : InterleavedAroundWithMax).next).1 =
      iawmPlusValue a m M (j % (M - m)) := by
  have hD : 0 < M - m := by omega
  have hcD : j % (M - m) < M - m := Nat.mod_lt _ hD
  show (match checkedAdd a (j % (M - m)) with
    | some next_val =>
      if next_val < M then next_val else next_val % M + m
    | none =>
      usizeAdd (usizeSub (j % (M - m)) (M - j % (M - m))) m) =
    iawmPlusValue a m M (j % (M - m))
  have h1 : checkedAdd a (j % (M - m)) = some (a + j % (M - m)) := by
    rw [checkedAdd, if_pos hsafe]
  rw [h1]
  show (if a + j % (M - m) < M then a + j % (M - m)
      else (a + j % (M - m)) % M + m) =
    (if a + j % (M - m) < M then a + j % (M - m)
      else a + j % (M - m) - M + m)
  rcases Nat.lt_or_ge (a + j % (M - m)) M with h | h
  · rw [if_pos h, if_pos h]
  · rw [if_neg (by omega), if_neg (by omega)]
    have hmod : (a + j % (M - m)) % M = a + j % (M - m) - M := by
      rw [Nat.mod_eq_sub_mod h, Nat.mod_eq_of_lt (by omega)]
    rw [hmod]

/-- Within the first M - m elements and in the overflow-free regime, the
k-th element of the iterator equals its closed form. -/
theorem iawm_elem_closed (a m M : Nat) (hm : m ≤ a) (hM : a < M)
    (hsafe : a + (M - m) ≤ 2 ^ 64) :
    ∀ k, k < M - m →
      ((iawmStateAt k (InterleavedAroundWithMax.new a m M)).next).1 =
        iawmElem a m M k := by
  intro k hk
  rcases Nat.even_or_odd k with he | ho
  · obtain ⟨j, hj⟩ := he
    have hk2 : k = 2 * j := by omega
    subst hk2
    have hst := (iawmStateAt_closed a m M j).1 (by omega)
    rw [hst, iawm_next_minus_value a m M j hm hM]
    have e1 : j % (M - m) = j := Nat.mod_eq_of_lt (by omega)
    have e2 : (2 * j) % 2 = 0 := by omega
    have e3 : 2 * j / 2 = j := by omega
    rw [iawmElem, if_neg (by omega), e1, e3]
  · obtain ⟨j, hj⟩ := ho
    subst hj
    have hst := (iawmStateAt_closed a m M j).2 (by omega)
    rw [hst, iawm_next_plus_value a m M (j + 1) hm hM ?hov]
    case hov =>
      have e1 : (j + 1) % (M - m) = j + 1 := Nat.mod_eq_of_lt (by omega)
      rw [e1, usizeMax]
      omega
    have e1 : (j + 1) % (M - m) = j + 1 := Nat.mod_eq_of_lt (by omega)
    have e2 : (2 * j + 1) % 2 = 1 := by omega
    have e3 : (2 * j + 1 + 1) / 2 = j + 1 := by omega
    rw [iawmElem, if_pos e2, e1, e3]

/-- The first M - m elements of the iterator, as a map of the closed form
over the index range. -/
theorem iawmTake_eq_map (a m M : Nat) (hm : m ≤ a) (hM : a < M)
    (hsafe : a + (M - m) ≤ 2 ^ 64) :
    iawmTake (M - m) (InterleavedAroundWithMax.new a m M) =
      (List.range (M - m)).map (iawmElem a m M) := by
  apply List.ext_get?
  intro k
  by_cases hk : k < M - m
  · rw [iawmTake_get? _ _ _ hk, iawm_elem_closed a m M hm hM hsafe k hk,
      List.get?_map, List.get?_range hk]
    rfl
  · rw [List.get?_eq_none.mpr, List.get?_eq_none.mpr]
    · simp only [List.length_map, List.length_range]
      omega
    · rw [iawmTake_length]
      omega

/-- Every closed-form element of the first window lies in [m, M). -/
theorem iawmElem_mem (a m M : Nat) (hm : m ≤ a) (hM : a < M) :
    ∀ k, k < M - m → m ≤ iawmElem a m M k ∧ iawmElem a m M k < M := by
  intro k hk
  rw [iawmElem, iawmPlusValue, iawmMinusValue]
  split_ifs <;> omega

/-- The closed-form elements of the first window are pairwise distinct. -/
theorem iawmElem_injOn (a m M : Nat) (hm : m ≤ a) (hM : a < M) :
    ∀ k1 k2, k1 < M - m → k2 < M - m →
      iawmElem a m M k1 = iawmElem a m M k2 → k1 = k2 := by
  intro k1 k2 h1 h2 heq
  rw [iawmElem, iawmElem, iawmPlusValue, iawmPlusValue, iawmMinusValue,
    iawmMinusValue] at heq
  split_ifs at heq <;> omega

/-- The closed-form elements of the first window cover [m, M) exactly. -/
theorem iawmElem_image (a m M : Nat) (hm : m ≤ a) (hM : a < M) :
    (Finset.range (M - m)).image (iawmElem a m M) = Finset.Ico m M := by
  have hinj : Set.InjOn (iawmElem a m M) (Finset.range (M - m)) := by
    intro k1 hk1 k2 hk2 heq
    exact iawmElem_injOn a m M hm hM k1 k2
      (by simpa using hk1) (by simpa using hk2) heq
  apply Finset.eq_of_subset_of_card_le
  · intro x hx
    simp only [Finset.mem_image, Finset.mem_range] at hx
    obtain ⟨k, hk, hfk⟩ := hx
    have hb := iawmElem_mem a m M hm hM k hk
    rw [Finset.mem_Ico]
    omega
  · rw [Nat.card_Ico, Finset.card_image_of_injOn hinj, Finset.card_range]

/-- The Prerender Order Iterator property of claim C1 holds in the
overflow-free regime: for every window m ≤ a < M with
a + (M - m) ≤ 2^64 (so that checked_add never overflows within the first
window), the first element produced from new a m M is a, and the first
M - m elements contain every index of [m, M) exactly once and nothing
else.  Together with iawm_overflow_window_fails this isolates the
checked_add-overflow fallback as the only source of failure of claim C1. -/
theorem iawm_first_window_exactly_once (a m M : Nat)
    (hm : m ≤ a) (hM : a < M) (hsafe : a + (M - m) ≤ 2 ^ 64) :
    (iawmTake (M - m) (InterleavedAroundWithMax.new a m M)).get? 0 = some a ∧
    ∀ x : Nat,
      List.count x (iawmTake (M - m) (InterleavedAroundWithMax.new a m M)) =
        if m ≤ x ∧ x < M then 1 else 0 := by
  have hD : 0 < M - m := by omega
  rw [iawmTake_eq_map a m M hm hM hsafe]
  have hnodup : ((List.range (M - m)).map (iawmElem a m M)).Nodup := by
    refine List.Nodup.map_on ?_ (List.nodup_range _)
    intro k1 hk1 k2 hk2 heq
    exact iawmElem_injOn a m M hm hM k1 k2
      (List.mem_range.mp hk1) (List.mem_range.mp hk2) heq
  constructor
  · rw [List.get?_map, List.get?_range hD]
    show some (iawmElem a m M 0) = some a
    rw [iawmElem, if_neg (by omega), iawmMinusValue]
    rw [show (0 : Nat) / 2 = 0 from rfl, if_pos (by omega), Nat.sub_zero]
  · intro x
    by_cases hx : m ≤ x ∧ x < M
    · rw [if_pos hx]
      refine List.count_eq_one_of_mem hnodup ?_
      have hx2 : x ∈ Finset.Ico m M := Finset.mem_Ico.mpr hx
      rw [← iawmElem_image a m M hm hM] at hx2
      simp only [Finset.mem_image, Finset.mem_range] at hx2
      obtain ⟨k, hk, hfk⟩ := hx2
      exact List.mem_map.mpr ⟨k, List.mem_range.mpr hk, hfk⟩
    · rw [if_neg hx]
      refine List.count_eq_zero_of_not_mem ?_
      intro hmem
      obtain ⟨k, hk, hfk⟩ := List.mem_map.mp hmem
      have hb := iawmElem_mem a m M hm hM k (List.mem_range.mp hk)
      exact hx ⟨by omega, by omega⟩

/-- Sanity check of the sweep model: with n_pages = 30 and start_point = 5
the multiple-of-20 boundary past start_point (20) is ≤ n_pages, so after
wrapping the loop does reach the return-to-start check and breaks, exactly
as the code intends; contrast with search_sweep_never_terminates. -/
theorem sweep_terminates_when_boundary_fits :
    sweepRun (fun _ => some 0) 30 5 3 (List.replicate 30 PrevRender.default) 5 =
      SweepOutcome.done (List.replicate 30 ⟨false, some 0⟩) := by
  decide
